import Mathlib

/-!
Verification of the aggregation-and-boundary-join pipeline of the
GeoJSON-Creation-Tool repository (scripts/column_detector.py,
scripts/create_geojson_levels.py, scripts/create_zip_geojson.py).

The pandas DataFrame is embedded shallowly: a table is a list of rows,
a row an association list from column name to cell value.  A cell that is
missing from a row models an empty (NaN/None) cell; `lookupCol` returns the
explicit absent marker for it, matching how pandas reports NaN.
-/

deriving instance DecidableEq for Except

namespace GeoJSONTool

/-- A cell value: a string, an integer measure, or the absent (NaN/None)
marker. -/
inductive Value where
  | str (s : String)
  | num (n : Int)
  | absent
deriving DecidableEq

/-- One DataFrame row: column name to cell value.  Cells that are absent
may simply be omitted from the list. -/
abbrev Row := List (String × Value)

/-- A DataFrame: its column labels and its rows. -/
structure Table where
  cols : List String
  rows : List Row
deriving DecidableEq

/-- Reading one cell; a missing entry is the absent (NaN) marker. -/
def lookupCol (r : Row) (c : String) : Value :=
  match r.find? (fun p => decide (p.1 = c)) with
  | some p => p.2
  | none => Value.absent

/-- Python `str()` of a cell, as applied by `.astype(str)`: float NaN
prints as "nan". -/
def valueToStr : Value → String
  | Value.str s => s
  | Value.num n => toString n
  | Value.absent => "nan"

/-- Python `str()` of a cell of an object column created by
`df_std[col] = None` in `standardize_dataframe`: `None` prints as "None". -/
def valueToStrBlank : Value → String
  | Value.str s => s
  | Value.num n => toString n
  | Value.absent => "None"

/-! ### Character-list string utilities

Python string primitives used by the scripts, modelled on `List Char` so
that they compute by structural recursion. -/

/-- Python `str.strip()`: drop leading and trailing whitespace. -/
def trimC (l : List Char) : List Char :=
  ((l.dropWhile Char.isWhitespace).reverse.dropWhile Char.isWhitespace).reverse

/-- Python `'.0' in`-style replacement: `str.replace('.0', '')` scans left
to right and removes every non-overlapping occurrence of `".0"`
(pandas `.str.replace('.0', '', regex=False)`, column_detector.py line 119
and create_geojson_levels.py line 34). -/
def replaceDotZero : List Char → List Char
  | [] => []
  | [c] => [c]
  | c :: d :: rest =>
    if c = '.' ∧ d = '0' then replaceDotZero rest
    else c :: replaceDotZero (d :: rest)

/-- Whether `".0"` occurs anywhere in the character list. -/
def hasDotZero : List Char → Bool
  | [] => false
  | [_] => false
  | c :: d :: rest => (decide (c = '.') && decide (d = '0')) || hasDotZero (d :: rest)

/-- `pat` is a leading segment of the second list. -/
def isPrefixC : List Char → List Char → Bool
  | [], _ => true
  | _ :: _, [] => false
  | p :: ps, c :: cs => decide (p = c) && isPrefixC ps cs

/-- Python `pat in s` substring test. -/
def hasSub (pat : List Char) : List Char → Bool
  | [] => pat.isEmpty
  | c :: rest => isPrefixC pat (c :: rest) || hasSub pat rest

/-- `containsSub s pat`: Python `pat in s` on strings. -/
def containsSub (s pat : String) : Bool :=
  hasSub pat.data s.data

/-- Python `str.zfill w`: left-pad with `'0'` to width `w`, keeping a
leading sign in front of the padding. -/
def zfill (w : Nat) (s : String) : String :=
  if w ≤ s.length then s
  else
    match s.data with
    | '+' :: rest => String.mk ('+' :: (List.replicate (w - s.length) '0' ++ rest))
    | '-' :: rest => String.mk ('-' :: (List.replicate (w - s.length) '0' ++ rest))
    | _ => String.mk (List.replicate (w - s.length) '0' ++ s.data)

/-- Zip normalization (column_detector.py line 119, create_geojson_levels.py
line 34): `astype(str).str.replace('.0', '', regex=False).str.zfill(5)`. -/
def normZip (s : String) : String :=
  zfill 5 (String.mk (replaceDotZero s.data))

/-- FIPS normalization (column_detector.py line 122, create_geojson_levels.py
line 35): `astype(str).str.zfill(5)` — note: no `'.0'` removal. -/
def normFIPS (s : String) : String :=
  zfill 5 s

/-! ### Schema detection (column_detector.py) -/

/-- `normalize_column_name`: strip, lower-case, collapse `_` and `-` to
spaces. -/
def normalizeColumnName (c : String) : String :=
  String.mk (((trimC c.data).map Char.toLower).map
    (fun ch => if ch = '_' ∨ ch = '-' then ' ' else ch))

/-- The `normalized_cols` dictionary of `detect_columns`: normalized name to
actual column label. -/
def normalizedCols (cols : List String) : List (String × String) :=
  cols.map (fun c => (normalizeColumnName c, c))

/-- Python dict lookup over the comprehension-built dictionary: a later
entry with the same key shadows an earlier one. -/
def dictLookup (m : List (String × String)) (k : String) : Option String :=
  (m.reverse.find? (fun p => decide (p.1 = k))).map Prod.snd

/-- First option that is `some`, in order: models each pattern loop of
`detect_columns` (`for pattern in ...: if pattern in normalized_cols: ...
break`) and also the first-successful-source loops of the boundary
downloads. -/
def firstHit {α : Type} : List (Option α) → Option α
  | [] => none
  | some x :: _ => some x
  | none :: rest => firstHit rest

/-- One role of `detect_columns`: the first alias pattern present among the
normalized column names wins. -/
def detectRole (patterns : List String) (cols : List String) : Option String :=
  firstHit (patterns.map (fun p => dictLookup (normalizedCols cols) p))

/-- The ZIP alias list of `detect_columns` (line 24). -/
def zipPatterns : List String :=
  ["zip", "zip code", "zipcode", "zcta", "zcta5", "postal code", "postalcode"]

/-! ### Table standardization (column_detector.py, standardize_dataframe) -/

/-- The `required_cols` list of `standardize_dataframe` (line 109). -/
def requiredCols : List String :=
  ["Zip", "FIPS", "County", "Chapter", "Region", "Division"]

/-- Boolean membership among column labels. -/
def memB (l : List String) (x : String) : Bool :=
  l.any (fun c => decide (c = x))

/-- The `rename_map` step: a detected pair `(std, actual)` renames column
`actual` to `std`; undetected columns keep their label. -/
def renameCol (detected : List (String × String)) (c : String) : String :=
  match detected.find? (fun p => decide (p.2 = c)) with
  | some p => p.1
  | none => c

/-- Per-row identifier normalization of `standardize_dataframe` lines
117-122 (Zip and FIPS cells pass through `astype(str)` and the zfill
pipelines). -/
def normRowStd (r : Row) : Row :=
  r.map (fun p =>
    if p.1 = "Zip" then (p.1, Value.str (normZip (valueToStrBlank p.2)))
    else if p.1 = "FIPS" then (p.1, Value.str (normFIPS (valueToStrBlank p.2)))
    else p)

/-- `standardize_dataframe`: rename detected columns to canonical names,
create each missing required column filled with the absent marker (`None`),
then normalize the Zip and FIPS columns.  Cells of the created columns are
materialized as explicit absent entries so that the identifier
normalization stringifies them exactly as pandas does (`'0None'`). -/
def standardize (t : Table) (detected : List (String × String)) : Table :=
  let cols1 := t.cols.map (renameCol detected)
  let rows1 := t.rows.map (fun r => r.map (fun p => (renameCol detected p.1, p.2)))
  let missing := requiredCols.filter (fun c => !(memB cols1 c))
  let rows2 := rows1.map (fun r => r ++ missing.map (fun c => (c, Value.absent)))
  { cols := cols1 ++ missing, rows := rows2.map normRowStd }

/-! ### Measure-column classification (create_geojson_levels.py lines 41-43) -/

/-- `col.isdigit()`: non-empty and all digits. -/
def isYearCol (c : String) : Bool :=
  !c.data.isEmpty && c.data.all Char.isDigit

/-- `year_cols = [col for col in df.columns if col.isdigit()]`. -/
def yearCols (cols : List String) : List String :=
  cols.filter isYearCol

/-- `total_cols = [col for col in df.columns if 'Total' in col]`. -/
def totalCols (cols : List String) : List String :=
  cols.filter (fun c => containsSub c "Total")

/-! ### Aggregation engine (create_geojson_levels.py groupby/agg calls) -/

/-- A reduction in the `.agg` dictionary: `'sum'` or `'first'`. -/
inductive Red where
  | sum
  | first
deriving DecidableEq

/-- Numeric view of a cell for summation; pandas `sum` skips NaN. -/
def valNum : Value → Int
  | Value.num n => n
  | _ => 0

/-- `'sum'` over one group's column. -/
def colSum (rows : List Row) (c : String) : Int :=
  (rows.map (fun r => valNum (lookupCol r c))).sum

/-- `'first'` over one group's column: pandas `GroupBy.first` returns the
first non-NaN value of the group, NaN when none exists. -/
def colFirst (rows : List Row) (c : String) : Value :=
  match (rows.map (fun r => lookupCol r c)).find? (fun v => decide (v ≠ Value.absent)) with
  | some v => v
  | none => Value.absent

/-- The rows of one group: those whose key cell equals `v`. -/
def groupRows (rows : List Row) (key : String) (v : Value) : List Row :=
  rows.filter (fun r => decide (lookupCol r key = v))

/-- Distinct values in order of first occurrence. -/
def firstUniq : List Value → List Value
  | [] => []
  | v :: vs => v :: (firstUniq vs).filter (fun w => decide (w ≠ v))

/-- The group keys of `df.groupby(key)`: the distinct non-absent key cells
(pandas drops NaN keys; `dropna=True` is the default).  pandas sorts the
keys; since no verified property depends on output order, first-occurrence
order is used. -/
def groupKeys (rows : List Row) (key : String) : List Value :=
  firstUniq ((rows.map (fun r => lookupCol r key)).filter (fun v => decide (v ≠ Value.absent)))

/-- Apply one reduction of the `.agg` dictionary to one group. -/
def applyRed : Red → List Row → String → Value
  | Red.sum, rows, c => Value.num (colSum rows c)
  | Red.first, rows, c => colFirst rows c

/-- pandas raises `KeyError` when the groupby key or any column named in
the `.agg` dictionary is missing from the frame. -/
def aggSpecOk (cols : List String) (key : String) (spec : List (String × Red)) : Bool :=
  memB cols key && spec.all (fun p => memB cols p.1)

/-- `df.groupby(key).agg({...}).reset_index()`: one output record per
distinct non-absent key, the key as first column, then each aggregated
column.  A missing referenced column raises (`Except.error`). -/
def aggregate (t : Table) (key : String) (spec : List (String × Red)) : Except String (List Row) :=
  if aggSpecOk t.cols key spec then
    Except.ok ((groupKeys t.rows key).map (fun v =>
      (key, v) :: spec.map (fun p => (p.1, applyRed p.2 (groupRows t.rows key v) p.1))))
  else
    Except.error "missing column"

/-- The `.agg` dictionary of `county_agg` (lines 179-184). -/
def countySpec (cols : List String) : List (String × Red) :=
  (["County", "State", "Chapter", "Region", "Division",
    "ECODE", "RCODE", "DCODE"].map (fun c => (c, Red.first)))
  ++ (yearCols cols).map (fun c => (c, Red.sum))
  ++ (totalCols cols).map (fun c => (c, Red.first))

/-- The `.agg` dictionary of `chapter_agg` (lines 231-235): only total
columns whose name mentions Chapter, Region or Division are kept. -/
def chapterSpec (cols : List String) : List (String × Red) :=
  (["Region", "Division", "RCODE", "DCODE"].map (fun c => (c, Red.first)))
  ++ (yearCols cols).map (fun c => (c, Red.sum))
  ++ ((totalCols cols).filter (fun c =>
        containsSub c "Chapter" || containsSub c "Region" || containsSub c "Division")).map
      (fun c => (c, Red.first))

/-- The `.agg` dictionary of `region_agg` (lines 313-317). -/
def regionSpec (cols : List String) : List (String × Red) :=
  (["Division", "RCODE", "DCODE"].map (fun c => (c, Red.first)))
  ++ (yearCols cols).map (fun c => (c, Red.sum))
  ++ ((totalCols cols).filter (fun c =>
        containsSub c "Region" || containsSub c "Division")).map (fun c => (c, Red.first))

/-- The `.agg` dictionary of `division_agg` (lines 371-375). -/
def divisionSpec (cols : List String) : List (String × Red) :=
  (["DCODE"].map (fun c => (c, Red.first)))
  ++ (yearCols cols).map (fun c => (c, Red.sum))
  ++ ((totalCols cols).filter (fun c => containsSub c "Division")).map (fun c => (c, Red.first))

/-- `county_agg = df.groupby('FIPS').agg({...}).reset_index()`. -/
def countyAgg (t : Table) : Except String (List Row) :=
  aggregate t "FIPS" (countySpec t.cols)

/-- `chapter_agg = df.groupby('Chapter').agg({...}).reset_index()`. -/
def chapterAgg (t : Table) : Except String (List Row) :=
  aggregate t "Chapter" (chapterSpec t.cols)

/-- `region_agg = df.groupby('Region').agg({...}).reset_index()`. -/
def regionAgg (t : Table) : Except String (List Row) :=
  aggregate t "Region" (regionSpec t.cols)

/-- `division_agg = df.groupby('Division').agg({...}).reset_index()`. -/
def divisionAgg (t : Table) : Except String (List Row) :=
  aggregate t "Division" (divisionSpec t.cols)

/-- Lines 34-35 of create_geojson_levels.py: after `read_csv` the Zip and
FIPS columns are normalized in place (`astype(str)` of a NaN cell of a
string-typed column gives "nan"). -/
def applyIdNorm (r : Row) : Row :=
  r.map (fun p =>
    if p.1 = "Zip" then (p.1, Value.str (normZip (valueToStr p.2)))
    else if p.1 = "FIPS" then (p.1, Value.str (normFIPS (valueToStr p.2)))
    else p)

/-- The loaded frame of create_geojson_levels.py, identifiers normalized. -/
def loadNormalize (t : Table) : Table :=
  { t with rows := t.rows.map applyIdNorm }

/-! ### Geometry joins (create_geojson_levels.py, create_zip_geojson.py)

Polygon payloads are opaque to every join, so geometry is a tagged
identifier. -/

/-- An opaque polygon/multipolygon payload. -/
structure Geom where
  gid : Nat
deriving DecidableEq

/-- Ordered concatenation of per-element lists (`flatMap`). -/
def concatMap {α β : Type} (f : α → List β) : List α → List β
  | [] => []
  | a :: as => f a ++ concatMap f as

/-- `counties_gdf['FIPS'] = counties_gdf['STATEFP'] + counties_gdf['COUNTYFP']`
(line 78): the boundary key is the two-digit state part concatenated with
the three-digit county part. -/
def mkCountyFips (statefp countyfp : String) : String :=
  statefp ++ countyfp

/-- `counties_gdf.merge(county_agg, on='FIPS', how='inner')`
(lines 186-193): every (boundary, record) pair whose FIPS keys coincide. -/
def countyGeomJoin (bs : List (String × Geom)) (recs : List Row) : List (Geom × Row) :=
  concatMap (fun b => (recs.filter
    (fun r => decide (lookupCol r "FIPS" = Value.str b.1))).map (fun r => (b.2, r))) bs

/-- The `chapter_match` key (lines 247-249): `astype(str).str.strip().str.upper()`. -/
def chapterMatchKey (s : String) : String :=
  String.mk ((trimC s.data).map Char.toUpper)

/-- `chapters_gdf.merge(chapter_agg, left_on='chapter_match',
right_on='chapter_match', how='inner')` (lines 251-256): boundary names and
record Chapter values are compared after strip + upper-case. -/
def chapterBoundaryJoin (bs : List (String × Geom)) (recs : List Row) : List (Geom × Row) :=
  concatMap (fun b => (recs.filter (fun r =>
    decide (chapterMatchKey (valueToStr (lookupCol r "Chapter")) = chapterMatchKey b.1))).map
    (fun r => (b.2, r))) bs

/-! ### ZIP-level output (create_zip_geojson.py) -/

/-- One GeoJSON feature: a flat property mapping and an optional
geometry (emitted as JSON `null` when `none`). -/
structure Feature where
  properties : List (String × Value)
  geometry : Option Geom

/-- `row.dropna().to_dict()`: absent values are omitted from the property
mapping, not emitted as nulls (lines 198-204). -/
def dropAbsent (r : Row) : List (String × Value) :=
  r.filter (fun p => decide (p.2 ≠ Value.absent))

/-- `zips_gdf.merge(df, left_on='ZIP_CODE', right_on='Zip', how='inner')`
(lines 157-162). -/
def zipJoin (bs : List (String × Geom)) (rows : List Row) : List (Geom × Row) :=
  concatMap (fun b => (rows.filter
    (fun r => decide (lookupCol r "Zip" = Value.str b.1))).map (fun r => (b.2, r))) bs

/-- The ZIP-level feature collection of create_zip_geojson.py.  Each
candidate boundary source (census vintage URLs lines 62-69, then the Esri
service) either yields a keyed boundary list or fails — any network error,
archive-format error or missing key column makes that candidate `none`, and
the loop advances to the next (lines 71-106).  With a boundary set the rows
are inner-joined to it; when every candidate fails, every input row becomes
a feature with `geometry: null` and its absent cells dropped
(lines 193-208). -/
def makeZipFeatures (cands : List (Option (List (String × Geom)))) (rows : List Row) :
    List Feature :=
  match firstHit cands with
  | some bs => (zipJoin bs rows).map (fun q => { properties := q.2, geometry := some q.1 })
  | none => rows.map (fun r => { properties := dropAbsent r, geometry := none })

/-! ### The specification example table -/

/-- First example row of spec section 8. -/
def exampleRow1 : Row :=
  [("Zip", Value.str "01001"), ("FIPS", Value.str "25013"),
   ("County", Value.str "Hampden"), ("Chapter", Value.str "Western MA"),
   ("Region", Value.str "Northeast"), ("Division", Value.str "Atlantic"),
   ("2023", Value.num 10)]

/-- Second example row of spec section 8. -/
def exampleRow2 : Row :=
  [("Zip", Value.str "01002"), ("FIPS", Value.str "25013"),
   ("County", Value.str "Hampden"), ("Chapter", Value.str "Western MA"),
   ("Region", Value.str "Northeast"), ("Division", Value.str "Atlantic"),
   ("2023", Value.num 15)]

/-- The example table exactly as the spec presents it: two rows, seven
columns. -/
def exampleTable : Table :=
  { cols := ["Zip", "FIPS", "County", "Chapter", "Region", "Division", "2023"],
    rows := [exampleRow1, exampleRow2] }

/-- The example table extended with the four code/State columns the
aggregation dictionaries reference (their cells left empty). -/
def exampleTableFull : Table :=
  loadNormalize
    { cols := exampleTable.cols ++ ["State", "ECODE", "RCODE", "DCODE"],
      rows := exampleTable.rows }

/-- Whether an aggregated record carries a column of the given name. -/
def recHasCol (r : Row) (c : String) : Bool :=
  r.any (fun p => decide (p.1 = c))

/-! ### Helper lemmas on the string utilities -/

theorem replaceDotZero_eq_self {l : List Char} (h : hasDotZero l = false) :
    replaceDotZero l = l := by
  induction l with
  | nil => rfl
  | cons c rest ih =>
    cases rest with
    | nil => rfl
    | cons d rest' =>
      simp only [hasDotZero, Bool.or_eq_false_iff, Bool.and_eq_false_iff,
        decide_eq_false_iff_not] at h
      have hne : ¬(c = '.' ∧ d = '0') := by
        intro hx
        rcases h.1 with h1 | h1
        · exact h1 hx.1
        · exact h1 hx.2
      simp only [replaceDotZero, if_neg hne]
      rw [ih h.2]

theorem replaceDotZero_append_dot_zero {l : List Char} (h : hasDotZero l = false) :
    replaceDotZero (l ++ ['.', '0']) = l := by
  induction l with
  | nil => rfl
  | cons c rest ih =>
    cases rest with
    | nil =>
      have hne : ¬(c = '.' ∧ ('.' : Char) = '0') := by
        intro hx
        exact absurd hx.2 (by decide)
      simp only [List.cons_append, List.nil_append, replaceDotZero, if_neg hne]
      simp
    | cons d rest' =>
      simp only [hasDotZero, Bool.or_eq_false_iff, Bool.and_eq_false_iff,
        decide_eq_false_iff_not] at h
      have hne : ¬(c = '.' ∧ d = '0') := by
        intro hx
        rcases h.1 with h1 | h1
        · exact h1 hx.1
        · exact h1 hx.2
      simp only [List.cons_append, replaceDotZero, if_neg hne]
      exact congrArg (c :: ·) (ih h.2)

/-! ### C1 -/

/-- C1 (counterexample): on the table consisting of the two example rows
exactly as the spec lists them (seven columns), both the county and the
chapter aggregation raise a pandas `KeyError`, because the `.agg`
dictionaries reference the columns State/ECODE/RCODE/DCODE which that
table does not have; no aggregated record is produced at all. -/
theorem C1_counterexample :
    countyAgg (loadNormalize exampleTable) = Except.error "missing column" ∧
    chapterAgg (loadNormalize exampleTable) = Except.error "missing column" := by
  decide

/-- C1 (amended): on the example table extended with the State, ECODE,
RCODE and DCODE columns referenced by the aggregation dictionaries,
county-level aggregation yields exactly one record, keyed FIPS "25013",
with 2023 summed to 25 and County "Hampden" (first value), and
chapter-level aggregation yields exactly one record for "Western MA" with
2023 = 25. -/
theorem C1_example_aggregation :
    (countyAgg exampleTableFull).map (fun out => out.map
        (fun r => (lookupCol r "FIPS", lookupCol r "County", lookupCol r "2023")))
      = Except.ok [(Value.str "25013", Value.str "Hampden", Value.num 25)] ∧
    (chapterAgg exampleTableFull).map (fun out => out.map
        (fun r => (lookupCol r "Chapter", lookupCol r "2023")))
      = Except.ok [(Value.str "Western MA", Value.num 25)] := by
  decide

/-! ### C3 -/

/-- C3 (counterexample): `"1.023"` contains `".0"` only in the interior,
so by the claim it should be left intact (and, being 5 characters already,
unchanged by the padding); the code instead removes the interior `".0"`
and pads, producing `"00123"`. -/
theorem C3_counterexample :
    normZip "1.023" = "00123" ∧ zfill 5 "1.023" = "1.023" ∧
    ("00123" : String) ≠ "1.023" := by
  decide

/-- C3 (amended): Zip normalization removes every (leftmost,
non-overlapping) occurrence of the substring `".0"`, not only a trailing
one, and then zero-pads to width 5.  When `".0"` does not occur in the
interior — the value either ends in the `".0"` float artifact or contains
no `".0"` at all — this agrees with stripping the trailing artifact and
padding. -/
theorem C3_strip_all_then_pad (l : List Char) (h : hasDotZero l = false) :
    normZip (String.mk (l ++ ['.', '0'])) = zfill 5 (String.mk l) ∧
    normZip (String.mk l) = zfill 5 (String.mk l) := by
  constructor
  · unfold normZip
    rw [show (String.mk (l ++ ['.', '0'])).data = l ++ ['.', '0'] from rfl,
      replaceDotZero_append_dot_zero h]
  · unfold normZip
    rw [show (String.mk l).data = l from rfl, replaceDotZero_eq_self h]

/-- Witness for C3: the float artifact value "1001.0" normalizes to
"01001", and the clean value "1001" to the same. -/
theorem C3_strip_all_then_pad_witness :
    normZip (String.mk ("1001".data ++ ['.', '0'])) = zfill 5 (String.mk "1001".data) ∧
    normZip (String.mk "1001".data) = zfill 5 (String.mk "1001".data) :=
  ⟨(C3_strip_all_then_pad "1001".data (by decide)).1,
   (C3_strip_all_then_pad "1001".data (by decide)).2⟩

/-! ### C8 -/

/-- C8 (confirmed): given a table with columns `ZipCode` and `zcta5`, in
either order, the ZIP role resolves to `ZipCode`, whose normalized name
matches the earlier alias (`zipcode` precedes `zcta5` in the alias
list). -/
theorem C8_alias_precedence :
    detectRole zipPatterns ["ZipCode", "zcta5"] = some "ZipCode" ∧
    detectRole zipPatterns ["zcta5", "ZipCode"] = some "ZipCode" := by
  decide

/-! ### Membership helper lemmas -/

theorem memB_eq_true {l : List String} {x : String} : memB l x = true ↔ x ∈ l := by
  simp [memB, List.any_eq_true]

theorem mem_firstUniq {a : Value} : ∀ {l : List Value}, a ∈ firstUniq l ↔ a ∈ l := by
  intro l
  induction l with
  | nil => simp [firstUniq]
  | cons v vs ih =>
    simp only [firstUniq, List.mem_cons, List.mem_filter, decide_eq_true_eq]
    constructor
    · rintro (rfl | ⟨hmem, _⟩)
      · exact Or.inl rfl
      · exact Or.inr (ih.mp hmem)
    · rintro (rfl | hmem)
      · exact Or.inl rfl
      · by_cases hav : a = v
        · exact Or.inl hav
        · exact Or.inr ⟨ih.mpr hmem, by simpa using hav⟩

theorem nodup_firstUniq : ∀ (l : List Value), (firstUniq l).Nodup := by
  intro l
  induction l with
  | nil => exact List.nodup_nil
  | cons v vs ih =>
    refine List.nodup_cons.mpr ⟨?_, ih.filter _⟩
    intro hv
    rcases List.mem_filter.mp hv with ⟨_, hne⟩
    simp at hne

theorem mem_concatMap {α β : Type} {f : α → List β} {b : β} :
    ∀ {l : List α}, b ∈ concatMap f l ↔ ∃ a ∈ l, b ∈ f a := by
  intro l
  induction l with
  | nil => simp [concatMap]
  | cons a as ih => simp [concatMap, ih]

theorem nodup_groupKeys (rows_ : List Row) (key : String) :
    (groupKeys rows_ key).Nodup :=
  nodup_firstUniq _

theorem mem_groupKeys {rows_ : List Row} {key : String} {v : Value} :
    v ∈ groupKeys rows_ key ↔
      v ≠ Value.absent ∧ ∃ r ∈ rows_, lookupCol r key = v := by
  rw [groupKeys, mem_firstUniq, List.mem_filter]
  simp only [List.mem_map, decide_eq_true_eq]
  constructor
  · rintro ⟨⟨r, hr, rfl⟩, hne⟩
    exact ⟨hne, r, hr, rfl⟩
  · rintro ⟨hne, r, hr, hv⟩
    exact ⟨⟨r, hr, hv⟩, hne⟩

/-! ### C4 -/

/-- A table already carrying the six required canonical columns but
neither the code columns nor State. -/
def c4Table : Table :=
  { cols := ["FIPS", "Zip", "County", "Chapter", "Region", "Division"], rows := [] }

/-- C4 (counterexample): standardization leaves a table without
ECODE/RCODE/DCODE/State columns — they are not among the created required
columns — and county and chapter aggregation of the standardized table
then raise on the missing columns instead of never failing. -/
theorem C4_counterexample :
    ("State" ∉ (standardize c4Table []).cols) ∧
    ("ECODE" ∉ (standardize c4Table []).cols) ∧
    countyAgg (standardize c4Table []) = Except.error "missing column" ∧
    chapterAgg (standardize c4Table []) = Except.error "missing column" := by
  decide

/-- C4 (amended): after standardization the six canonical columns Zip,
FIPS, County, Chapter, Region and Division always exist (missing ones are
created filled with the absent marker), so grouping never fails on those
keys; the code columns ECODE, RCODE, DCODE and the State column are not
created, and per-column reduction can still raise when they are absent. -/
theorem C4_required_cols_exist (t : Table) (detected : List (String × String))
    (c : String) (hc : c ∈ requiredCols) : c ∈ (standardize t detected).cols := by
  show c ∈ t.cols.map (renameCol detected)
    ++ requiredCols.filter (fun x => !(memB (t.cols.map (renameCol detected)) x))
  rcases Bool.eq_false_or_eq_true (memB (t.cols.map (renameCol detected)) c) with hb | hb
  · exact List.mem_append_left _ (memB_eq_true.mp hb)
  · refine List.mem_append_right _ (List.mem_filter.mpr ⟨hc, ?_⟩)
    rw [hb]
    rfl

/-- Witness for C4: the Zip column exists after standardizing a table
that lacks every canonical column. -/
theorem C4_required_cols_exist_witness :
    "Zip" ∈ (standardize (Table.mk ["x"] []) []).cols :=
  C4_required_cols_exist (Table.mk ["x"] []) [] "Zip" (by decide)

/-! ### C5 -/

/-- A table with one row whose Chapter cell is absent. -/
def c5Table : Table :=
  { cols := ["Chapter", "Region", "Division", "RCODE", "DCODE"],
    rows := [[("Region", Value.str "Northeast")]] }

/-- C5 (counterexample): a one-row table whose Chapter key is absent
aggregates to an empty chapter-level record list — the absent-key row is
dropped by the grouping (pandas `dropna=True`), so it contributes to no
output record, contradicting the claimed retention under an absent-marker
group. -/
theorem C5_counterexample :
    chapterAgg c5Table = Except.ok [] ∧ c5Table.rows.length = 1 := by
  decide

/-- C5 (amended): grouping compares keys by case-sensitive exact match —
there is exactly one group per distinct key value — but rows whose key is
absent are dropped by the grouping rather than retained under an absent
marker: the group keys are exactly the non-absent key cells occurring in
the rows. -/
theorem C5_group_keys_exact (rows_ : List Row) (key : String) :
    (groupKeys rows_ key).Nodup ∧
    ∀ v : Value, v ∈ groupKeys rows_ key ↔
      v ≠ Value.absent ∧ ∃ r ∈ rows_, lookupCol r key = v := by
  exact ⟨nodup_groupKeys rows_ key, fun v => mem_groupKeys⟩

/-! ### C6 -/

/-- A table whose single total column mentions none of Chapter, Region,
Division. -/
def c6Table : Table :=
  { cols := ["Chapter", "Region", "Division", "RCODE", "DCODE", "GrandTotal"],
    rows := [[("Chapter", Value.str "A"), ("GrandTotal", Value.num 7)]] }

/-- C6 (counterexample): "GrandTotal" is a total column of the input, yet
the chapter-level aggregated record does not contain it — the chapter
`.agg` dictionary keeps only total columns whose name mentions Chapter,
Region or Division. -/
theorem C6_counterexample :
    "GrandTotal" ∈ totalCols c6Table.cols ∧
    (chapterAgg c6Table).map (fun out => out.map (fun r => recHasCol r "GrandTotal"))
      = Except.ok [false] := by
  decide

theorem no_total_of_all_digits {l : List Char} (h : l.all Char.isDigit = true) :
    hasSub "Total".data l = false := by
  induction l with
  | nil => rfl
  | cons c rest ih =>
    rw [List.all_cons, Bool.and_eq_true] at h
    show (isPrefixC "Total".data (c :: rest) || hasSub "Total".data rest) = false
    rw [ih h.2, Bool.or_false]
    show (decide (('T' : Char) = c) && isPrefixC "otal".data rest) = false
    have hne : ('T' : Char) ≠ c := by
      intro hx
      rw [← hx] at h
      exact absurd h.1 (by decide)
    rw [decide_eq_false hne, Bool.false_and]

theorem isYearCol_false_of_total {c : String} (h : containsSub c "Total" = true) :
    isYearCol c = false := by
  unfold isYearCol
  rcases Bool.eq_false_or_eq_true (c.data.all Char.isDigit) with hd | hd
  · rw [containsSub, no_total_of_all_digits hd] at h
    cases h
  · rw [hd, Bool.and_false]

theorem not_mem_map_first {c : String} {xs : List String} :
    (c, Red.sum) ∉ xs.map (fun x => (x, Red.first)) := by
  intro hmem
  rcases List.mem_map.mp hmem with ⟨x, _, hx⟩
  simp at hx

theorem sum_not_mem_level {c : String} {fixed cols totals : List String}
    (hyc : isYearCol c = false) :
    (c, Red.sum) ∉ (fixed.map (fun x => (x, Red.first))
      ++ (yearCols cols).map (fun x => (x, Red.sum))
      ++ totals.map (fun x => (x, Red.first))) := by
  intro hmem
  rcases List.mem_append.mp hmem with hmem | hmem
  · rcases List.mem_append.mp hmem with hmem | hmem
    · exact not_mem_map_first hmem
    · rcases List.mem_map.mp hmem with ⟨x, hx, he⟩
      rw [Prod.mk.injEq] at he
      have hyx := (List.mem_filter.mp hx).2
      rw [he.1, hyc] at hyx
      cases hyx
  · exact not_mem_map_first hmem

theorem first_mem_level_iff {c : String} {fixed cols : List String} {p : String → Bool}
    (hnt : ∀ x ∈ fixed, containsSub x "Total" = false)
    (ht : containsSub c "Total" = true) (hc : c ∈ cols) :
    ((c, Red.first) ∈ (fixed.map (fun x => (x, Red.first))
      ++ (yearCols cols).map (fun x => (x, Red.sum))
      ++ ((totalCols cols).filter p).map (fun x => (x, Red.first)))) ↔ p c = true := by
  constructor
  · intro hmem
    rcases List.mem_append.mp hmem with hmem | hmem
    · rcases List.mem_append.mp hmem with hmem | hmem
      · rcases List.mem_map.mp hmem with ⟨x, hx, he⟩
        rw [Prod.mk.injEq] at he
        rw [he.1] at hx
        rw [hnt c hx] at ht
        cases ht
      · rcases List.mem_map.mp hmem with ⟨x, _, he⟩
        rw [Prod.mk.injEq] at he
        cases he.2
    · rcases List.mem_map.mp hmem with ⟨x, hx, he⟩
      rw [Prod.mk.injEq] at he
      rw [he.1] at hx
      exact (List.mem_filter.mp hx).2
  · intro hp
    exact List.mem_append_right _ (List.mem_map.mpr
      ⟨c, List.mem_filter.mpr ⟨List.mem_filter.mpr ⟨hc, ht⟩, hp⟩, rfl⟩)

/-- C6 (amended): a total column of the input is always reduced by
first-value selection, never summed, at every level; but it is carried
into the aggregated output only at county level unconditionally — at
chapter level only when its name mentions Chapter, Region or Division, at
region level only Region or Division, at division level only Division. -/
theorem C6_total_cols_policy (cols : List String) (c : String)
    (ht : containsSub c "Total" = true) (hc : c ∈ cols) :
    ((c, Red.first) ∈ countySpec cols) ∧
    ((c, Red.sum) ∉ countySpec cols) ∧
    ((c, Red.sum) ∉ chapterSpec cols) ∧
    ((c, Red.sum) ∉ regionSpec cols) ∧
    ((c, Red.sum) ∉ divisionSpec cols) ∧
    (((c, Red.first) ∈ chapterSpec cols) ↔
      (containsSub c "Chapter" || containsSub c "Region" || containsSub c "Division") = true) ∧
    (((c, Red.first) ∈ regionSpec cols) ↔
      (containsSub c "Region" || containsSub c "Division") = true) ∧
    (((c, Red.first) ∈ divisionSpec cols) ↔ containsSub c "Division" = true) := by
  have hyc := isYearCol_false_of_total ht
  refine ⟨?_, sum_not_mem_level hyc, sum_not_mem_level hyc, sum_not_mem_level hyc,
    sum_not_mem_level hyc, ?_, ?_, ?_⟩
  · exact List.mem_append_right _ (List.mem_map.mpr
      ⟨c, List.mem_filter.mpr ⟨hc, ht⟩, rfl⟩)
  · exact first_mem_level_iff (by decide) ht hc
  · exact first_mem_level_iff (by decide) ht hc
  · exact first_mem_level_iff (by decide) ht hc

/-! ### C2: conservation of year-column sums under county aggregation -/

theorem sum_filter_split (rows_ : List Row) (p : Row → Bool) (f : Row → Int) :
    ((rows_.filter p).map f).sum + ((rows_.filter (fun r => !(p r))).map f).sum
      = (rows_.map f).sum := by
  induction rows_ with
  | nil => rfl
  | cons r rest ih =>
    rcases Bool.eq_false_or_eq_true (p r) with hb | hb <;>
      simp [List.filter_cons, hb] <;> omega

theorem filter_key_of_filter_ne (rows_ : List Row) (k : Row → Value) (v w : Value)
    (hne : w ≠ v) :
    ((rows_.filter (fun r => !(decide (k r = v)))).filter (fun r => decide (k r = w)))
      = rows_.filter (fun r => decide (k r = w)) := by
  induction rows_ with
  | nil => rfl
  | cons r rest ih =>
    by_cases hv : k r = v
    · have hw : k r ≠ w := fun hx => hne (hx.symm.trans hv)
      simp [List.filter_cons, hv, hw, Ne.symm hne, ih]
    · simp [List.filter_cons, hv, ih]

theorem sum_over_groups (f : Row → Int) (k : Row → Value) :
    ∀ (keys : List Value) (rows_ : List Row), keys.Nodup → (∀ r ∈ rows_, k r ∈ keys) →
    (keys.map (fun v => ((rows_.filter (fun r => decide (k r = v))).map f).sum)).sum
      = (rows_.map f).sum := by
  intro keys
  induction keys with
  | nil =>
    intro rows_ _ hcov
    cases rows_ with
    | nil => rfl
    | cons r rest => exact absurd (hcov r (List.mem_cons_self r rest)) (List.not_mem_nil (k r))
  | cons v vs ih =>
    intro rows_ hnd hcov
    have hvnotin := (List.nodup_cons.mp hnd).1
    have hnd' := (List.nodup_cons.mp hnd).2
    have hsplit := sum_filter_split rows_ (fun r => decide (k r = v)) f
    have hcov' : ∀ r ∈ rows_.filter (fun r => !(decide (k r = v))), k r ∈ vs := by
      intro r hr
      rcases List.mem_filter.mp hr with ⟨hrmem, hnv⟩
      rcases List.mem_cons.mp (hcov r hrmem) with he | hm
      · rw [he] at hnv
        simp at hnv
      · exact hm
    have hmapeq :
        vs.map (fun w => ((rows_.filter (fun r => decide (k r = w))).map f).sum)
          = vs.map (fun w =>
              (((rows_.filter (fun r => !(decide (k r = v)))).filter
                (fun r => decide (k r = w))).map f).sum) := by
      apply List.map_congr_left
      intro w hw
      rw [filter_key_of_filter_ne rows_ k v w (fun he => hvnotin (he ▸ hw))]
    rw [List.map_cons, List.sum_cons, hmapeq,
      ih (rows_.filter (fun r => !(decide (k r = v)))) hnd' hcov']
    exact hsplit

theorem lookup_agg_record (grp : List Row) (key : String) (v : Value)
    (spec : List (String × Red)) (y : String)
    (hky : y ≠ key)
    (hspec : ∀ p ∈ spec, p.1 = y → p.2 = Red.sum)
    (hy : (y, Red.sum) ∈ spec) :
    lookupCol ((key, v) :: spec.map (fun p => (p.1, applyRed p.2 grp p.1))) y
      = Value.num (colSum grp y) := by
  unfold lookupCol
  rw [List.find?_cons_of_neg _ (by simp [Ne.symm hky])]
  induction spec with
  | nil => cases hy
  | cons q qs ih =>
    by_cases hq : q.1 = y
    · have hsum : q.2 = Red.sum := hspec q (List.mem_cons_self q qs) hq
      rw [List.map_cons, List.find?_cons_of_pos _ (by simp [hq])]
      simp [hq, hsum, applyRed]
    · rw [List.map_cons, List.find?_cons_of_neg _ (by simp [hq])]
      apply ih
      · intro p hp hpy
        exact hspec p (List.mem_cons_of_mem q hp) hpy
      · rcases List.mem_cons.mp hy with he | hm
        · exact absurd (congrArg Prod.fst he).symm hq
        · exact hm

/-- The eight ancestor columns first-selected by `county_agg`. -/
theorem countyFirstCols_not_year :
    ∀ x ∈ ["County", "State", "Chapter", "Region", "Division",
           "ECODE", "RCODE", "DCODE"], isYearCol x = false := by
  decide

theorem countySpec_year_policy {cols : List String} {y : String}
    (hy : isYearCol y = true) :
    ∀ p ∈ countySpec cols, p.1 = y → p.2 = Red.sum := by
  intro p hp hpy
  rcases List.mem_append.mp hp with hp | hp
  · rcases List.mem_append.mp hp with hp | hp
    · rcases List.mem_map.mp hp with ⟨x, hx, he⟩
      exfalso
      have hxy : x = y := by rw [← he] at hpy; exact hpy
      have := countyFirstCols_not_year x hx
      rw [hxy, hy] at this
      cases this
    · rcases List.mem_map.mp hp with ⟨x, _, he⟩
      rw [← he]
  · rcases List.mem_map.mp hp with ⟨x, hx, he⟩
    exfalso
    have hxy : x = y := by rw [← he] at hpy; exact hpy
    have := isYearCol_false_of_total (List.mem_filter.mp hx).2
    rw [hxy, hy] at this
    cases this

/-- C2 (confirmed): whenever county aggregation succeeds and no FIPS key
is absent, the sum of any year column over the aggregated county records
equals its sum over the original rows — no value is double-counted or
lost. -/
theorem C2_year_sum_conserved (t : Table) (out : List Row) (y : String)
    (hok : countyAgg t = Except.ok out)
    (habs : ∀ r ∈ t.rows, lookupCol r "FIPS" ≠ Value.absent)
    (hy : isYearCol y = true) (hmem : y ∈ t.cols) :
    (out.map (fun r => valNum (lookupCol r y))).sum
      = (t.rows.map (fun r => valNum (lookupCol r y))).sum := by
  unfold countyAgg aggregate at hok
  rcases Bool.eq_false_or_eq_true (aggSpecOk t.cols "FIPS" (countySpec t.cols)) with hb | hb
  · rw [if_pos hb] at hok
    injection hok with hout
    rw [← hout, List.map_map]
    have hky : y ≠ "FIPS" := by
      intro he
      have := hy
      rw [he] at this
      exact absurd this (by decide)
    have hymem : (y, Red.sum) ∈ countySpec t.cols :=
      List.mem_append_left _ (List.mem_append_right _
        (List.mem_map.mpr ⟨y, List.mem_filter.mpr ⟨hmem, hy⟩, rfl⟩))
    have hptwise : (groupKeys t.rows "FIPS").map
        ((fun r => valNum (lookupCol r y)) ∘ (fun v => ("FIPS", v) :: (countySpec t.cols).map
          (fun p => (p.1, applyRed p.2 (groupRows t.rows "FIPS" v) p.1))))
        = (groupKeys t.rows "FIPS").map (fun v =>
            ((groupRows t.rows "FIPS" v).map (fun r => valNum (lookupCol r y))).sum) := by
      apply List.map_congr_left
      intro v _
      show valNum (lookupCol (("FIPS", v) :: (countySpec t.cols).map
        (fun p => (p.1, applyRed p.2 (groupRows t.rows "FIPS" v) p.1))) y) = _
      rw [lookup_agg_record (groupRows t.rows "FIPS" v) "FIPS" v (countySpec t.cols) y hky
        (countySpec_year_policy hy) hymem]
      rfl
    rw [hptwise]
    exact sum_over_groups (fun r => valNum (lookupCol r y)) (fun r => lookupCol r "FIPS")
      (groupKeys t.rows "FIPS") t.rows (nodup_groupKeys t.rows "FIPS")
      (fun r hr => mem_groupKeys.mpr ⟨habs r hr, r, hr, rfl⟩)
  · rw [if_neg (by simp [hb])] at hok
    cases hok

/-- The county-level aggregate of the extended example table. -/
def c2Out : List Row :=
  [[("FIPS", Value.str "25013"), ("County", Value.str "Hampden"),
    ("State", Value.absent), ("Chapter", Value.str "Western MA"),
    ("Region", Value.str "Northeast"), ("Division", Value.str "Atlantic"),
    ("ECODE", Value.absent), ("RCODE", Value.absent), ("DCODE", Value.absent),
    ("2023", Value.num 25)]]

/-- Witness for C2: on the extended example table the 2023 totals agree
(both are 25). -/
theorem C2_year_sum_conserved_witness :
    countyAgg exampleTableFull = Except.ok c2Out ∧
    (c2Out.map (fun r => valNum (lookupCol r "2023"))).sum
      = (exampleTableFull.rows.map (fun r => valNum (lookupCol r "2023"))).sum :=
  ⟨by decide,
   C2_year_sum_conserved exampleTableFull c2Out "2023" (by decide) (by decide)
     (by decide) (by decide)⟩

/-- Witness for C6: "GrandTotal" is first-selected at county level and
not carried at chapter level. -/
theorem C6_total_cols_policy_witness :
    (("GrandTotal", Red.first) ∈ countySpec c6Table.cols) ∧
    ¬ ((("GrandTotal", Red.first) ∈ chapterSpec c6Table.cols) ↔ True) := by
  have h := C6_total_cols_policy c6Table.cols "GrandTotal" (by decide) (by decide)
  refine ⟨h.1, ?_⟩
  intro hiff
  have := h.2.2.2.2.2.1.mp (hiff.mpr trivial)
  cases this

/-! ### C7 -/

theorem firstHit_eq_none {α : Type} {cands : List (Option α)}
    (h : ∀ c ∈ cands, c = none) : firstHit cands = none := by
  induction cands with
  | nil => rfl
  | cons c rest ih =>
    have hc := h c (List.mem_cons_self c rest)
    subst hc
    exact ih (fun x hx => h x (List.mem_cons_of_mem _ hx))

/-- C7 (confirmed): when every ZIP boundary candidate fails, the candidate
chain is exhausted without raising, and the ZIP-level output carries
exactly one feature per input row, each with geometry explicitly absent
(serialized as `null`) and with absent property values dropped rather than
emitted. -/
theorem C7_zip_fallback (cands : List (Option (List (String × Geom)))) (rows_ : List Row)
    (h : ∀ c ∈ cands, c = none) :
    firstHit cands = none ∧
    (makeZipFeatures cands rows_).length = rows_.length ∧
    ∀ f ∈ makeZipFeatures cands rows_,
      f.geometry = none ∧ ∀ p ∈ f.properties, p.2 ≠ Value.absent := by
  have hnone := firstHit_eq_none h
  refine ⟨hnone, ?_, ?_⟩
  · unfold makeZipFeatures
    rw [hnone]
    simp
  · intro f hf
    unfold makeZipFeatures at hf
    rw [hnone] at hf
    rcases List.mem_map.mp hf with ⟨r, _, he⟩
    rw [← he]
    refine ⟨rfl, ?_⟩
    intro p hp
    have hkeep := (List.mem_filter.mp hp).2
    rw [decide_eq_true_eq] at hkeep
    exact hkeep

/-- One input row with an absent cell. -/
def c7Rows : List Row :=
  [[("Zip", Value.str "01001"), ("State", Value.absent)]]

/-- Witness for C7: two failing candidate sources, one input row. -/
theorem C7_zip_fallback_witness :
    firstHit ([none, none] : List (Option (List (String × Geom)))) = none ∧
    (makeZipFeatures [none, none] c7Rows).length = c7Rows.length :=
  ⟨(C7_zip_fallback [none, none] c7Rows (by decide)).1,
   (C7_zip_fallback [none, none] c7Rows (by decide)).2.1⟩

/-! ### C9 -/

/-- C9 (confirmed): FIPS normalization does not strip the float artifact —
`"25013.0"` is left as is (7 characters, more than the padding width) —
so the record can match no five-character county boundary key and is
excluded from the geometry-bearing county output by the inner join. -/
theorem C9_fips_float_excluded (bs : List (String × Geom)) (recs : List Row) (r : Row)
    (hkeys : ∀ p ∈ bs, (p : String × Geom).1.length = 5)
    (hr : lookupCol r "FIPS" = Value.str (normFIPS "25013.0")) :
    normFIPS "25013.0" = "25013.0" ∧
    (normFIPS "25013.0").length = 7 ∧
    ∀ q ∈ countyGeomJoin bs recs, q.2 ≠ r := by
  refine ⟨by decide, by decide, ?_⟩
  intro q hq hqr
  rcases mem_concatMap.mp hq with ⟨bnd, hbnd, hmemq⟩
  rcases List.mem_map.mp hmemq with ⟨rr, hrr, he⟩
  have hfilter := (List.mem_filter.mp hrr).2
  rw [decide_eq_true_eq] at hfilter
  have hrrr : rr = r := by rw [← he] at hqr; exact hqr
  rw [hrrr, hr] at hfilter
  injection hfilter with hb1
  have hlen := hkeys bnd hbnd
  rw [← hb1] at hlen
  rw [(by decide : normFIPS "25013.0" = "25013.0")] at hlen
  exact absurd hlen (by decide)

/-- A county boundary polygon payload. -/
def c9Geom : Geom := { gid := 0 }

/-- A county-aggregate record whose FIPS came from a float-parsed value. -/
def c9Rec : Row := [("FIPS", Value.str (normFIPS "25013.0"))]

/-- Witness for C9: state part "25", county part "013" give the 5-digit
boundary key; the float-artifact record does not join. -/
theorem C9_fips_float_excluded_witness :
    normFIPS "25013.0" = "25013.0" ∧ (normFIPS "25013.0").length = 7 :=
  ⟨(C9_fips_float_excluded [(mkCountyFips "25" "013", c9Geom)] [c9Rec] c9Rec
      (by decide) (by decide)).1,
   (C9_fips_float_excluded [(mkCountyFips "25" "013", c9Geom)] [c9Rec] c9Rec
      (by decide) (by decide)).2.1⟩

/-! ### C10 -/

/-- C10 (confirmed): the chapter boundary join strips and upper-cases both
keys, so a record whose Chapter differs from the boundary name only by
case/whitespace still joins to that boundary, while the aggregation
grouping keeps two such spellings as two distinct groups. -/
theorem C10_chapter_match (a b : String) (g : Geom) (r r2 : Row)
    (hmatch : chapterMatchKey a = chapterMatchKey b)
    (hr : lookupCol r "Chapter" = Value.str b)
    (hr2 : lookupCol r2 "Chapter" = Value.str a)
    (hne : a ≠ b) :
    (g, r) ∈ chapterBoundaryJoin [(a, g)] [r] ∧
    (groupKeys [r, r2] "Chapter").length = 2 := by
  constructor
  · apply mem_concatMap.mpr
    refine ⟨(a, g), by simp, ?_⟩
    apply List.mem_map.mpr
    refine ⟨r, ?_, rfl⟩
    apply List.mem_filter.mpr
    refine ⟨by simp, ?_⟩
    rw [decide_eq_true_eq, hr]
    show chapterMatchKey b = chapterMatchKey a
    exact hmatch.symm
  · have hsa : Value.str a ≠ Value.str b := by
      intro hx
      injection hx with hx
      exact hne hx
    simp [groupKeys, firstUniq, hr, hr2, hsa]

/-- A chapter boundary polygon payload. -/
def c10Geom : Geom := { gid := 1 }

/-- A record whose Chapter value has stray case and whitespace. -/
def c10Row : Row := [("Chapter", Value.str " western ma")]

/-- A record with the canonical spelling. -/
def c10Row2 : Row := [("Chapter", Value.str "Western MA")]

/-- Witness for C10: " western ma" joins the "Western MA" boundary, yet
grouping keeps the two spellings separate. -/
theorem C10_chapter_match_witness :
    ((c10Geom, c10Row) ∈ chapterBoundaryJoin [("Western MA", c10Geom)] [c10Row]) ∧
    (groupKeys [c10Row, c10Row2] "Chapter").length = 2 :=
  ⟨(C10_chapter_match "Western MA" " western ma" c10Geom c10Row c10Row2
      (by decide) (by decide) (by decide) (by decide)).1,
   (C10_chapter_match "Western MA" " western ma" c10Geom c10Row c10Row2
      (by decide) (by decide) (by decide) (by decide)).2⟩

end GeoJSONTool
